import Mathlib

/-
Verification of the devto-agent task lifecycle engine.

This development shallowly embeds the two Python source modules
  src/a2a_servers/common/agent_task_manager.py
  src/a2a_servers/agents/utils/remote_agent_connection.py
into Lean and proves the specified properties about the embedding.

Python dictionaries are modelled as association lists with insertion-order
semantics (`dictInsert` replaces the first occurrence of a key in place and
appends fresh keys at the end, exactly as CPython dict assignment does).
JSON values are modelled by the inductive `JValue`; the external `json.loads`
parser is an abstract parameter `loads : String → Option JValue`, with `none`
standing for the `ValueError` the real parser raises on malformed input.
Exceptions are modelled with `Except`.
-/

set_option autoImplicit false

namespace A2A

/-- JSON-like values, as produced by the agent payloads and `json.loads`. -/
inductive JValue where
  | str (s : String)
  | num (n : Int)
  | bool (b : Bool)
  | null
  | arr (xs : List JValue)
  | obj (fields : List (String × JValue))

/-- Metadata mappings (`Dict[str, Any]` in the source) as association lists. -/
def Metadata : Type := List (String × JValue)

/-- Python `d[k]` lookup on an insertion-ordered dictionary. -/
def dictGet {α : Type} (k : String) : List (String × α) → Option α
  | [] => none
  | (k0, v) :: rest => if k0 = k then some v else dictGet k rest

/-- Python `d[k] = v`: replace the first binding of `k` in place, or append. -/
def dictInsert {α : Type} (k : String) (v : α) : List (String × α) → List (String × α)
  | [] => [(k, v)]
  | (k0, v0) :: rest => if k0 = k then (k, v) :: rest else (k0, v0) :: dictInsert k v rest

/-- Python `t.update(s)`: insert every binding of `s` into `t`, left to right. -/
def dictUpdate {α : Type} (t s : List (String × α)) : List (String × α) :=
  s.foldl (fun acc p => dictInsert p.1 p.2 acc) t

theorem dictGet_dictInsert_self {α : Type} (k : String) (v : α)
    (d : List (String × α)) : dictGet k (dictInsert k v d) = some v := by
  induction d with
  | nil => simp [dictInsert, dictGet]
  | cons p rest ih =>
      obtain ⟨k0, v0⟩ := p
      by_cases h : k0 = k
      · simp [dictInsert, h, dictGet]
      · simp [dictInsert, h, dictGet, ih]

theorem dictGet_dictInsert_ne {α : Type} {k k0 : String} (v : α)
    (d : List (String × α)) (h : k ≠ k0) :
    dictGet k (dictInsert k0 v d) = dictGet k d := by
  have h' : ¬ k0 = k := fun hh => h hh.symm
  induction d with
  | nil => simp [dictInsert, dictGet, h']
  | cons p rest ih =>
      obtain ⟨k1, v1⟩ := p
      by_cases h1 : k1 = k0
      · subst h1
        simp [dictInsert, dictGet, h']
      · simp [dictInsert, h1, dictGet, ih]

theorem dictGet_eq_none_of_not_mem {α : Type} {k : String}
    {d : List (String × α)} (h : k ∉ d.map Prod.fst) : dictGet k d = none := by
  induction d with
  | nil => rfl
  | cons p rest ih =>
      obtain ⟨k0, v0⟩ := p
      simp only [List.map_cons, List.mem_cons] at h
      push_neg at h
      have hk : ¬ k0 = k := fun hh => h.1 hh.symm
      simp [dictGet, hk, ih h.2]

theorem dictGet_dictUpdate_none {α : Type} {k : String}
    {s : List (String × α)} (hs : dictGet k s = none) (t : List (String × α)) :
    dictGet k (dictUpdate t s) = dictGet k t := by
  induction s generalizing t with
  | nil => rfl
  | cons p rest ih =>
      obtain ⟨k0, v0⟩ := p
      simp only [dictGet] at hs
      by_cases h : k0 = k
      · rw [if_pos h] at hs
        exact absurd hs (by simp)
      · rw [if_neg h] at hs
        have hrec := ih hs (dictInsert k0 v0 t)
        rw [dictGet_dictInsert_ne _ _ (fun hh => h hh.symm)] at hrec
        exact hrec

theorem dictGet_dictUpdate_some {α : Type} {k : String} {v : α}
    {s : List (String × α)} (hnd : (s.map Prod.fst).Nodup)
    (hs : dictGet k s = some v) (t : List (String × α)) :
    dictGet k (dictUpdate t s) = some v := by
  induction s generalizing t with
  | nil => simp [dictGet] at hs
  | cons p rest ih =>
      obtain ⟨k0, v0⟩ := p
      simp only [List.map_cons, List.nodup_cons] at hnd
      simp only [dictGet] at hs
      by_cases h : k0 = k
      · subst h
        rw [if_pos rfl] at hs
        injection hs with hv
        subst hv
        have hrest : dictGet k0 rest = none := dictGet_eq_none_of_not_mem hnd.1
        show dictGet k0 (dictUpdate (dictInsert k0 v0 t) rest) = some v0
        rw [dictGet_dictUpdate_none hrest, dictGet_dictInsert_self]
      · rw [if_neg h] at hs
        exact ih hnd.2 hs (dictInsert k0 v0 t)

/-- Objects carrying a possibly-absent `metadata` attribute.  `has_attr`
models Python's `hasattr(x, "metadata")`; `metadata = none` models the
attribute being present but `None`. -/
structure MObj where
  has_attr : Bool
  metadata : Option Metadata

/-- Python truthiness of a metadata slot: `None` and an empty dict are falsy. -/
def mTruthy : Option Metadata → Bool
  | none => false
  | some l => !l.isEmpty

/-- Lookup into an `MObj`'s metadata, `none` when there is no mapping. -/
def mGet (o : MObj) (k : String) : Option JValue :=
  match o.metadata with
  | none => none
  | some m => dictGet k m

/-- Embedding of `merge_metadata(target, source)` from
src/a2a_servers/agents/utils/remote_agent_connection.py (returns the updated
target instead of mutating it). -/
def merge_metadata (target source : MObj) : MObj :=
  if !target.has_attr || !source.has_attr then target
  else if mTruthy target.metadata && mTruthy source.metadata then
    { target with metadata := some (dictUpdate (target.metadata.getD []) (source.metadata.getD [])) }
  else if mTruthy source.metadata then
    { target with metadata := some (source.metadata.getD []) }
  else target

/-- Embedding of the message-id chaining block of `send_task` in
src/a2a_servers/agents/utils/remote_agent_connection.py:
`if not m.metadata: m.metadata = \x7b\x7d`, move any existing `message_id`
to `last_message_id`, then assign the fresh identifier to `message_id`.
The externally generated `str(uuid.uuid4())` is the parameter `fresh`. -/
def chainMessageId (m : Option Metadata) (fresh : String) : Metadata :=
  let md : Metadata := match m with
    | none => []
    | some l => l
  let md1 : Metadata := match dictGet "message_id" md with
    | some v => dictInsert "last_message_id" v md
    | none => md
  dictInsert "message_id" (JValue.str fresh) md1

/-- C6: `merge_metadata(target, source)` is a no-op when either side lacks the
metadata attribute or when the source's metadata is falsy (hence idempotent in
that case); when both sides hold mappings, every key of the source wins and
keys only in the target are preserved; when only the source holds a truthy
mapping, the target adopts a copy of it. -/
theorem merge_metadata_c6 (t s : MObj) :
    ((t.has_attr = false ∨ s.has_attr = false) → merge_metadata t s = t) ∧
    (mTruthy s.metadata = false → merge_metadata t s = t) ∧
    (mTruthy s.metadata = false →
      merge_metadata (merge_metadata t s) s = merge_metadata t s) ∧
    (∀ tm sm, t.has_attr = true → s.has_attr = true →
      t.metadata = some tm → s.metadata = some sm → (sm.map Prod.fst).Nodup →
      (∀ k v, dictGet k sm = some v → mGet (merge_metadata t s) k = some v) ∧
      (∀ k, dictGet k sm = none → mGet (merge_metadata t s) k = dictGet k tm)) ∧
    (t.has_attr = true → s.has_attr = true →
      mTruthy t.metadata = false → mTruthy s.metadata = true →
      (merge_metadata t s).metadata = s.metadata) := by
  have key : ∀ t' : MObj, mTruthy s.metadata = false → merge_metadata t' s = t' := by
    intro t' h
    by_cases ha : (!t'.has_attr || !s.has_attr) = true
    · simp [merge_metadata, ha]
    · have ha' : (!t'.has_attr || !s.has_attr) = false := by simpa using ha
      simp [merge_metadata, ha', h]
  refine ⟨?_, ?_, ?_, ?_, ?_⟩
  · intro h
    rcases h with h | h <;> simp [merge_metadata, h]
  · intro h
    exact key t h
  · intro h
    rw [key t h]
    exact key t h
  · intro tm sm hta hsa htm hsm hnd
    by_cases hst : mTruthy s.metadata = true
    · have hst2 : mTruthy (some sm) = true := by rw [← hsm]; exact hst
      by_cases htt : mTruthy t.metadata = true
      · have htt2 : mTruthy (some tm) = true := by rw [← htm]; exact htt
        have hm : merge_metadata t s =
            { t with metadata := some (dictUpdate tm sm) } := by
          simp [merge_metadata, hta, hsa, htm, hsm, htt2, hst2]
        constructor
        · intro k v hk
          rw [hm]
          simp only [mGet]
          exact dictGet_dictUpdate_some hnd hk tm
        · intro k hk
          rw [hm]
          simp only [mGet]
          exact dictGet_dictUpdate_none hk tm
      · have htt' : mTruthy t.metadata = false := by simpa using htt
        have htt2 : mTruthy (some tm) = false := by rw [← htm]; exact htt'
        have htm0 : tm = [] := by
          cases tm with
          | nil => rfl
          | cons a l => simp [mTruthy] at htt2
        have hm : merge_metadata t s = { t with metadata := some sm } := by
          simp [merge_metadata, hta, hsa, htm, hsm, htt2, hst2]
        constructor
        · intro k v hk
          rw [hm]
          simpa [mGet] using hk
        · intro k hk
          rw [hm]
          simp [mGet, hk, htm0, dictGet]
    · have hst' : mTruthy s.metadata = false := by simpa using hst
      have hst2 : mTruthy (some sm) = false := by rw [← hsm]; exact hst'
      have hsm0 : sm = [] := by
        cases sm with
        | nil => rfl
        | cons a l => simp [mTruthy] at hst2
      refine ⟨?_, ?_⟩
      · intro k v hk
        rw [hsm0] at hk
        simp [dictGet] at hk
      · intro k hk
        rw [key t hst']
        simp [mGet, htm]
  · intro hta hsa htt hst
    cases hsm : s.metadata with
    | none => rw [hsm] at hst; simp [mTruthy] at hst
    | some sm =>
        have hst2 : mTruthy (some sm) = true := by rw [← hsm]; exact hst
        simp [merge_metadata, hta, hsa, htt, hsm, hst2]

/-- Witness for C6 at concrete metadata mappings. -/
theorem merge_metadata_c6_witness :
    mGet (merge_metadata ⟨true, some [("a", JValue.num 1), ("b", JValue.num 2)]⟩
                         ⟨true, some [("b", JValue.num 7), ("c", JValue.num 9)]⟩) "b"
      = some (JValue.num 7) ∧
    mGet (merge_metadata ⟨true, some [("a", JValue.num 1), ("b", JValue.num 2)]⟩
                         ⟨true, some [("b", JValue.num 7), ("c", JValue.num 9)]⟩) "a"
      = some (JValue.num 1) := by
  have h := (merge_metadata_c6
      ⟨true, some [("a", JValue.num 1), ("b", JValue.num 2)]⟩
      ⟨true, some [("b", JValue.num 7), ("c", JValue.num 9)]⟩).2.2.2.1
      [("a", JValue.num 1), ("b", JValue.num 2)]
      [("b", JValue.num 7), ("c", JValue.num 9)]
      rfl rfl rfl rfl (by decide)
  refine ⟨h.1 "b" (JValue.num 7) rfl, ?_⟩
  have ha := h.2 "a" rfl
  simpa [dictGet] using ha

/-- C7: chaining assigns the fresh identifier to `message_id`; an existing
`message_id` value is moved to `last_message_id`; and after two sequential
chainings the second result's `last_message_id` equals the identifier the
first chaining assigned. -/
theorem chainMessageId_c7 (m : Option Metadata) (f1 f2 : String) :
    dictGet "message_id" (chainMessageId m f1) = some (JValue.str f1) ∧
    (∀ md v, m = some md → dictGet "message_id" md = some v →
      dictGet "last_message_id" (chainMessageId m f1) = some v) ∧
    dictGet "last_message_id" (chainMessageId (some (chainMessageId m f1)) f2)
      = some (JValue.str f1) := by
  refine ⟨?_, ?_, ?_⟩
  · exact dictGet_dictInsert_self _ _ _
  · intro md v hm hv
    subst hm
    simp only [chainMessageId, hv]
    rw [dictGet_dictInsert_ne _ _ (by decide)]
    exact dictGet_dictInsert_self _ _ _
  · have h1 : dictGet "message_id" (chainMessageId m f1) = some (JValue.str f1) :=
      dictGet_dictInsert_self _ _ _
    generalize hmd : chainMessageId m f1 = md at h1 ⊢
    simp only [chainMessageId, h1]
    rw [dictGet_dictInsert_ne _ _ (by decide)]
    exact dictGet_dictInsert_self _ _ _

/-- Witness for C7 at a concrete metadata mapping. -/
theorem chainMessageId_c7_witness :
    dictGet "message_id" (chainMessageId (some [("message_id", JValue.str "m0")]) "u1")
      = some (JValue.str "u1") ∧
    dictGet "last_message_id" (chainMessageId (some [("message_id", JValue.str "m0")]) "u1")
      = some (JValue.str "m0") ∧
    dictGet "last_message_id"
        (chainMessageId (some (chainMessageId (some [("message_id", JValue.str "m0")]) "u1")) "u2")
      = some (JValue.str "u1") := by
  have h := chainMessageId_c7 (some [("message_id", JValue.str "m0")]) "u1" "u2"
  exact ⟨h.1, h.2.1 [("message_id", JValue.str "m0")] (JValue.str "m0") rfl rfl, h.2.2⟩

/-- Task lifecycle states used by the engine (spec section 4.2). -/
inductive TaskState where
  | SUBMITTED
  | WORKING
  | INPUT_REQUIRED
  | COMPLETED
deriving DecidableEq

/-- Message or artifact parts: the `"type": "text"` and `"type": "data"`
dictionaries built by the task manager. -/
inductive Part where
  | text (text : String)
  | data (data : JValue)

/-- Artifacts (parts, index, append flag); the streaming path constructs
`Artifact(parts=parts, index=0, append=False)` and the unary path uses the
defaults `index=0`, `append=None`. -/
structure Artifact where
  parts : List Part
  index : Nat
  append : Option Bool

/-- Messages: a role, a list of parts and optional metadata. -/
structure Message where
  role : String
  parts : List Part
  metadata : Option Metadata

/-- Task status: a state plus an optional message. -/
structure TaskStatus where
  state : TaskState
  message : Option Message

/-- Task records stored by the in-memory task store. -/
structure Task where
  id : String
  sessionId : String
  status : TaskStatus
  artifacts : Option (List Artifact)
  history : Option (List Message)
  metadata : Option Metadata

/-- The in-memory task store `self.tasks` (task identifier to Task). -/
def Store : Type := List (String × Task)

/-- Embedding of `AgentTaskManager._update_store` from
src/a2a_servers/common/agent_task_manager.py: look the task up (raising
`ValueError` when absent, modelled by `Except.error` with the store
unchanged), replace its status, and extend its artifact list (creating it
when it was `None`) whenever the artifacts argument is not `None`. -/
def update_store (store : Store) (task_id : String) (status : TaskStatus)
    (artifacts : Option (List Artifact)) : Except String Task × Store :=
  match dictGet task_id store with
  | none => (Except.error ("Task " ++ task_id ++ " not found"), store)
  | some task =>
      let task' : Task := { task with
        status := status,
        artifacts := match artifacts with
          | none => task.artifacts
          | some arts => some (task.artifacts.getD [] ++ arts) }
      (Except.ok task', dictInsert task_id task' store)

/-- C4: for a stored identifier, `_update_store` replaces the status and
appends the given artifacts (creating the artifact list when absent, and
leaving it unchanged when the artifacts argument is `None`), updating only
that identifier's binding; for an unknown identifier it fails with a
not-found error and leaves the store unchanged. -/
theorem update_store_c4 (store : Store) (tid : String) (status : TaskStatus)
    (arts : Option (List Artifact)) :
    (∀ task task', dictGet tid store = some task →
      task' = { task with
        status := status,
        artifacts := match arts with
          | none => task.artifacts
          | some as1 => some (task.artifacts.getD [] ++ as1) } →
      update_store store tid status arts = (Except.ok task', dictInsert tid task' store) ∧
      task'.status = status ∧
      dictGet tid (update_store store tid status arts).2 = some task' ∧
      (∀ k, k ≠ tid → dictGet k (update_store store tid status arts).2 = dictGet k store)) ∧
    (dictGet tid store = none →
      update_store store tid status arts =
        (Except.error ("Task " ++ tid ++ " not found"), store)) := by
  constructor
  · intro task task' hget htask
    subst htask
    have hupd : update_store store tid status arts =
        (Except.ok { task with
            status := status,
            artifacts := match arts with
              | none => task.artifacts
              | some as1 => some (task.artifacts.getD [] ++ as1) },
         dictInsert tid { task with
            status := status,
            artifacts := match arts with
              | none => task.artifacts
              | some as1 => some (task.artifacts.getD [] ++ as1) } store) := by
      simp [update_store, hget]
    refine ⟨hupd, rfl, ?_, ?_⟩
    · rw [hupd]
      exact dictGet_dictInsert_self _ _ _
    · intro k hk
      rw [hupd]
      exact dictGet_dictInsert_ne _ _ hk
  · intro hget
    simp [update_store, hget]

/-- Sample message used by the concrete witnesses below. -/
def msg0 : Message := ⟨"user", [Part.text "hi"], none⟩

/-- Sample stored task used by the concrete witnesses below. -/
def task0 : Task := ⟨"t1", "s1", ⟨TaskState.SUBMITTED, none⟩, none, some [msg0], none⟩

/-- Sample store holding `task0` under identifier `"t1"`. -/
def store0 : Store := [("t1", task0)]

/-- Sample status used by the concrete witnesses below. -/
def status0 : TaskStatus := ⟨TaskState.WORKING, none⟩

/-- Sample artifact used by the concrete witnesses below. -/
def art0 : Artifact := ⟨[Part.text "out"], 0, some false⟩

/-- Witness for C4 at a concrete store: a present identifier is updated, an
absent one fails with the store unchanged. -/
theorem update_store_c4_witness :
    update_store store0 "t1" status0 (some [art0]) =
      (Except.ok { task0 with status := status0, artifacts := some [art0] },
       [("t1", { task0 with status := status0, artifacts := some [art0] })]) ∧
    update_store store0 "t2" status0 none =
      (Except.error ("Task " ++ "t2" ++ " not found"), store0) := by
  have h1 := (update_store_c4 store0 "t1" status0 (some [art0])).1 task0
      { task0 with status := status0, artifacts := some [art0] } rfl rfl
  have h2 := (update_store_c4 store0 "t2" status0 none).2 rfl
  exact ⟨h1.1, h2⟩

/-- Agent stream payload content: `item["content"]` is either plain text or a
structured dictionary (the source probes it with `isinstance(..., dict)`). -/
inductive Content where
  | text (s : String)
  | data (d : List (String × JValue))

/-- One incremental update from `agent.stream`, i.e. an
`\x7b"is_task_complete": ..., "updates": ..., "content": ...\x7d` item. -/
structure StreamItem where
  is_task_complete : Bool
  updates : String
  content : Content

/-- Substring check on character lists (all starting positions). -/
def listContainsSub (n : List Char) : List Char → Bool
  | [] => n.isEmpty
  | c :: rest => n.isPrefixOf (c :: rest) || listContainsSub n rest

/-- Python's `needle in hay` on strings (substring containment). -/
def isSubstr (needle hay : String) : Bool :=
  listContainsSub needle.toList hay.toList

/-- Python's `k in v` on a JSON value: key membership for dicts, substring
for strings, element membership for lists, `TypeError` otherwise. -/
def pyContains (v : JValue) (k : String) : Except Unit Bool :=
  match v with
  | JValue.obj fields => Except.ok (dictGet k fields).isSome
  | JValue.str s => Except.ok (isSubstr k s)
  | JValue.arr xs => Except.ok (xs.any (fun x => match x with
      | JValue.str s => s == k
      | _ => false))
  | _ => Except.error ()

/-- Python's `v[k]` on a JSON value: dict lookup (`KeyError` when absent),
`TypeError` on anything that is not a dict. -/
def pyIndex (v : JValue) (k : String) : Except Unit JValue :=
  match v with
  | JValue.obj fields =>
      match dictGet k fields with
      | some x => Except.ok x
      | none => Except.error ()
  | _ => Except.error ()

/-- Python's `json.loads(v)` given the abstract parser `loads`: only strings
can be parsed (`TypeError` otherwise), and parse failure raises. -/
def pyLoads (loads : String → Option JValue) : JValue → Except Unit JValue
  | JValue.str s =>
      match loads s with
      | some v => Except.ok v
      | none => Except.error ()
  | _ => Except.error ()

/-- The loop variables of `_stream_generator`'s `async for` body after one
iteration: `is_task_complete`, `task_state`, `parts` and `artifacts`. -/
structure LoopState where
  is_task_complete : Bool
  task_state : TaskState
  parts : List Part
  artifacts : Option (List Artifact)

/-- Embedding of one iteration of the `async for` loop body of
`AgentTaskManager._stream_generator` (src/a2a_servers/common/agent_task_manager.py):
a not-complete update sets `WORKING` with a textual part and no artifacts; a
complete update applies the terminal-state selection (nested
`content["response"]["result"]` parsed as JSON gives `INPUT_REQUIRED`, any
other dict or text content gives `COMPLETED`) and builds exactly one
artifact.  `Except.error` models an exception escaping the loop body. -/
def processItem (loads : String → Option JValue) (item : StreamItem) :
    Except Unit LoopState :=
  if item.is_task_complete then
    match item.content with
    | Content.data d =>
        match dictGet "response" d with
        | some resp =>
            match pyContains resp "result" with
            | Except.error e => Except.error e
            | Except.ok true =>
                match pyIndex resp "result" with
                | Except.error e => Except.error e
                | Except.ok rv =>
                    match pyLoads loads rv with
                    | Except.error e => Except.error e
                    | Except.ok parsed =>
                        Except.ok ⟨true, TaskState.INPUT_REQUIRED, [Part.data parsed],
                          some [⟨[Part.data parsed], 0, some false⟩]⟩
            | Except.ok false =>
                Except.ok ⟨true, TaskState.COMPLETED, [Part.data (JValue.obj d)],
                  some [⟨[Part.data (JValue.obj d)], 0, some false⟩]⟩
        | none =>
            Except.ok ⟨true, TaskState.COMPLETED, [Part.data (JValue.obj d)],
              some [⟨[Part.data (JValue.obj d)], 0, some false⟩]⟩
    | Content.text s =>
        Except.ok ⟨true, TaskState.COMPLETED, [Part.text s],
          some [⟨[Part.text s], 0, some false⟩]⟩
  else
    Except.ok ⟨false, TaskState.WORKING, [Part.text item.updates], none⟩

/-- Driving the `async for` loop over the whole upstream sequence: the loop
variables after the loop hold the values from the last iteration (`none`
when the loop never ran, i.e. the variables are unbound). -/
def runItems (loads : String → Option JValue) :
    List StreamItem → Option LoopState → Except Unit (Option LoopState)
  | [], acc => Except.ok acc
  | i :: rest, _ =>
      match processItem loads i with
      | Except.error e => Except.error e
      | Except.ok st => runItems loads rest (some st)

/-- Events emitted by the streaming pipeline: `SendTaskStreamingResponse`
carrying a `TaskStatusUpdateEvent` or `TaskArtifactUpdateEvent`, or a
`JSONRPCResponse` carrying an `InternalError`. -/
inductive StreamEvent where
  | status (reqId taskId : String) (status : TaskStatus) (final : Bool)
  | artifact (reqId taskId : String) (a : Artifact)
  | error (reqId : String) (message : String)

/-- The `InternalError` message of the streaming pipeline. -/
def streamErrMsg : String := "An error occurred while streaming the response"

/-- Embedding of the straight-line code after the `async for` loop of
`_stream_generator`: build the status message from the (last) loop
variables, persist via `_update_store` (an exception there yields the
internal error event), then emit the non-final status event, one artifact
event per artifact when `artifacts` is truthy, and the final status event
(state only, no message) when `is_task_complete` is true. -/
def streamEpilogue (store : Store) (taskId reqId : String) (st : LoopState) :
    List StreamEvent × Store :=
  let message : Message := ⟨"agent", st.parts, none⟩
  let task_status : TaskStatus := ⟨st.task_state, some message⟩
  match update_store store taskId task_status st.artifacts with
  | (Except.error _, _) => ([StreamEvent.error reqId streamErrMsg], store)
  | (Except.ok _, store') =>
      let artifactEvents : List StreamEvent :=
        match st.artifacts with
        | some arts => arts.map (fun a => StreamEvent.artifact reqId taskId a)
        | none => []
      let finalEvents : List StreamEvent :=
        if st.is_task_complete then
          [StreamEvent.status reqId taskId ⟨st.task_state, none⟩ true]
        else []
      (StreamEvent.status reqId taskId task_status false :: artifactEvents ++ finalEvents,
       store')

/-- Embedding of `AgentTaskManager._stream_generator`
(src/a2a_servers/common/agent_task_manager.py, lines 30-90).  Note the
source's indentation: the `message = ...` block and all `yield` statements
sit at the same indentation level as the `async for` statement, i.e. they
run once AFTER the upstream loop has finished, over the loop variables of
the last iteration.  An empty upstream therefore leaves `parts` unbound and
the resulting `NameError` is caught by the `except` clause, which yields a
single internal-error response. -/
def stream_generator (loads : String → Option JValue) (store : Store)
    (taskId reqId : String) (items : List StreamItem) :
    List StreamEvent × Store :=
  match runItems loads items none with
  | Except.error _ => ([StreamEvent.error reqId streamErrMsg], store)
  | Except.ok none => ([StreamEvent.error reqId streamErrMsg], store)
  | Except.ok (some st) => streamEpilogue store taskId reqId st

theorem runItems_append (loads : String → Option JValue)
    (xs ys : List StreamItem) (acc : Option LoopState) :
    runItems loads (xs ++ ys) acc =
      match runItems loads xs acc with
      | Except.error e => Except.error e
      | Except.ok mid => runItems loads ys mid := by
  induction xs generalizing acc with
  | nil => rfl
  | cons i rest ih =>
      cases h : processItem loads i with
      | error e => simp [runItems, h]
      | ok st => simp [runItems, h, ih]

theorem processItem_incomplete (loads : String → Option JValue) (i : StreamItem)
    (h : i.is_task_complete = false) :
    processItem loads i = Except.ok ⟨false, TaskState.WORKING, [Part.text i.updates], none⟩ := by
  simp [processItem, h]

theorem runItems_ok_of_all_incomplete (loads : String → Option JValue)
    (xs : List StreamItem) (h : ∀ x ∈ xs, x.is_task_complete = false)
    (acc : Option LoopState) :
    ∃ mid, runItems loads xs acc = Except.ok mid := by
  induction xs generalizing acc with
  | nil => exact ⟨acc, rfl⟩
  | cons i rest ih =>
      have hi : i.is_task_complete = false := h i (by simp)
      obtain ⟨mid, hmid⟩ := ih (fun x hx => h x (List.mem_cons_of_mem _ hx))
        (some ⟨false, TaskState.WORKING, [Part.text i.updates], none⟩)
      exact ⟨mid, by simp [runItems, processItem_incomplete loads i hi, hmid]⟩

/-- C10: the emission block of `_stream_generator` is dedented out of the
upstream loop, so an upstream sequence of only not-complete updates yields
exactly one non-final WORKING status event, built from the LAST update (no
final event, no error event); and an empty upstream sequence yields exactly
one internal-error response, because the status-building code reads the
never-assigned loop variables and the resulting exception is caught by the
pipeline's error handler. -/
theorem stream_dedent_c10 (loads : String → Option JValue) (store : Store)
    (tid rid : String) :
    (∀ (pre : List StreamItem) (u : StreamItem),
      (∀ x ∈ pre ++ [u], x.is_task_complete = false) →
      (dictGet tid store).isSome = true →
      (stream_generator loads store tid rid (pre ++ [u])).1 =
        [StreamEvent.status rid tid
          ⟨TaskState.WORKING, some ⟨"agent", [Part.text u.updates], none⟩⟩ false]) ∧
    stream_generator loads store tid rid [] =
      ([StreamEvent.error rid streamErrMsg], store) := by
  constructor
  · intro pre u hall hsome
    have hpre : ∀ x ∈ pre, x.is_task_complete = false :=
      fun x hx => hall x (by simp [hx])
    have hu : u.is_task_complete = false := hall u (by simp)
    obtain ⟨mid, hmid⟩ := runItems_ok_of_all_incomplete loads pre hpre none
    have hrun : runItems loads (pre ++ [u]) none =
        Except.ok (some ⟨false, TaskState.WORKING, [Part.text u.updates], none⟩) := by
      rw [runItems_append, hmid]
      simp [runItems, processItem_incomplete loads u hu]
    cases hg : dictGet tid store with
    | none => rw [hg] at hsome; simp at hsome
    | some task =>
        simp [stream_generator, hrun, streamEpilogue, update_store, hg]
  · rfl

/-- Sample `json.loads` model used by the concrete witnesses: parses the
JSON text `"42"` to the number 42 and rejects everything else. -/
def loads0 : String → Option JValue :=
  fun s => if s = "42" then some (JValue.num 42) else none

/-- Witness for C10 at a concrete two-update upstream sequence and at the
empty sequence. -/
theorem stream_dedent_c10_witness :
    (stream_generator loads0 store0 "t1" "r1"
        ([⟨false, "step 1", Content.text ""⟩] ++ [⟨false, "step 2", Content.text ""⟩])).1 =
      [StreamEvent.status "r1" "t1"
        ⟨TaskState.WORKING, some ⟨"agent", [Part.text "step 2"], none⟩⟩ false] ∧
    stream_generator loads0 store0 "t1" "r1" [] =
      ([StreamEvent.error "r1" streamErrMsg], store0) := by
  have h := stream_dedent_c10 loads0 store0 "t1" "r1"
  refine ⟨?_, h.2⟩
  exact h.1 [⟨false, "step 1", Content.text ""⟩] ⟨false, "step 2", Content.text ""⟩
    (by intro x hx; simp at hx; rcases hx with h1 | h1 <;> subst h1 <;> rfl) rfl

/-- C1: contrary to the per-update claim, the status-building and yield block
of `_stream_generator` runs only after the upstream loop ends (it is dedented
out of the `async for`), so an upstream sequence of two not-complete updates
produces exactly ONE WORKING status event — built from the last update — and
not one event per update.  This theorem evaluates the embedding at that
failing input. -/
theorem stream_per_update_c1_bug :
    (stream_generator loads0 store0 "t1" "r1"
        [⟨false, "step 1", Content.text ""⟩, ⟨false, "step 2", Content.text ""⟩]).1 =
      [StreamEvent.status "r1" "t1"
        ⟨TaskState.WORKING, some ⟨"agent", [Part.text "step 2"], none⟩⟩ false] ∧
    ((stream_generator loads0 store0 "t1" "r1"
        [⟨false, "step 1", Content.text ""⟩, ⟨false, "step 2", Content.text ""⟩]).1).length = 1 := by
  constructor
  · rfl
  · rfl

theorem processItem_complete {loads : String → Option JValue} {u : StreamItem}
    {st : LoopState} (hc : u.is_task_complete = true)
    (h : processItem loads u = Except.ok st) :
    st.is_task_complete = true ∧ ∃ a, st.artifacts = some [a] := by
  simp only [processItem, hc, if_true] at h
  cases hcon : u.content with
  | text s =>
      simp only [hcon] at h
      injection h with h
      rw [← h]
      exact ⟨rfl, _, rfl⟩
  | data d =>
      simp only [hcon] at h
      cases hresp : dictGet "response" d with
      | none =>
          simp only [hresp] at h
          injection h with h
          rw [← h]
          exact ⟨rfl, _, rfl⟩
      | some resp =>
          simp only [hresp] at h
          cases hcont : pyContains resp "result" with
          | error e => simp only [hcont] at h; simp at h
          | ok b =>
              simp only [hcont] at h
              cases b with
              | false =>
                  injection h with h
                  rw [← h]
                  exact ⟨rfl, _, rfl⟩
              | true =>
                  cases hidx : pyIndex resp "result" with
                  | error e => simp only [hidx] at h; simp at h
                  | ok rv =>
                      simp only [hidx] at h
                      cases hld : pyLoads loads rv with
                      | error e => simp only [hld] at h; simp at h
                      | ok parsed =>
                          simp only [hld] at h
                          injection h with h
                          rw [← h]
                          exact ⟨rfl, _, rfl⟩

theorem streamEpilogue_events (store : Store) (tid rid : String) (st : LoopState)
    (hc : st.is_task_complete = true) (a : Artifact) (ha : st.artifacts = some [a]) :
    (streamEpilogue store tid rid st).1 = [StreamEvent.error rid streamErrMsg] ∨
    (streamEpilogue store tid rid st).1 =
      [StreamEvent.status rid tid ⟨st.task_state, some ⟨"agent", st.parts, none⟩⟩ false,
       StreamEvent.artifact rid tid a,
       StreamEvent.status rid tid ⟨st.task_state, none⟩ true] := by
  cases hu : update_store store tid ⟨st.task_state, some ⟨"agent", st.parts, none⟩⟩ st.artifacts with
  | mk fst snd =>
      cases fst with
      | error e =>
          left
          simp [streamEpilogue, hu]
      | ok tsk =>
          right
          rw [ha] at hu
          simp [streamEpilogue, ha, hc, hu]

/-- Boolean scan: every artifact event is preceded by some status event. -/
def okOrder (seenStatus : Bool) : List StreamEvent → Bool
  | [] => true
  | StreamEvent.artifact _ _ _ :: rest => seenStatus && okOrder seenStatus rest
  | StreamEvent.status _ _ _ _ :: rest => okOrder true rest
  | StreamEvent.error _ _ :: rest => okOrder seenStatus rest

/-- Boolean scan: any status event with the final flag set is the last event
of the sequence and carries a status with no message. -/
def finalOk : List StreamEvent → Bool
  | [] => true
  | StreamEvent.status _ _ st f :: rest =>
      (!f || (rest.isEmpty && st.message.isNone)) && finalOk rest
  | _ :: rest => finalOk rest

/-- C3: for every upstream sequence whose last update signals complete, the
emitted event sequence never places an artifact event before a status event,
and any final-flagged status event is the last event emitted and carries a
status with no message payload. -/
theorem stream_ordering_c3 (loads : String → Option JValue) (store : Store)
    (tid rid : String) (pre : List StreamItem) (u : StreamItem)
    (hc : u.is_task_complete = true) :
    okOrder false (stream_generator loads store tid rid (pre ++ [u])).1 = true ∧
    finalOk (stream_generator loads store tid rid (pre ++ [u])).1 = true := by
  cases hrun : runItems loads (pre ++ [u]) none with
  | error e =>
      simp [stream_generator, hrun, okOrder, finalOk]
  | ok macc =>
      cases macc with
      | none =>
          exfalso
          rw [runItems_append] at hrun
          cases h1 : runItems loads pre none with
          | error e => rw [h1] at hrun; simp at hrun
          | ok mid =>
              rw [h1] at hrun
              cases h2 : processItem loads u with
              | error e => simp [runItems, h2] at hrun
              | ok st2 => simp [runItems, h2] at hrun
      | some st =>
          have hstc : st.is_task_complete = true ∧ ∃ a, st.artifacts = some [a] := by
            rw [runItems_append] at hrun
            cases h1 : runItems loads pre none with
            | error e => rw [h1] at hrun; simp at hrun
            | ok mid =>
                rw [h1] at hrun
                cases h2 : processItem loads u with
                | error e => simp [runItems, h2] at hrun
                | ok st2 =>
                    simp [runItems, h2] at hrun
                    rw [← hrun]
                    exact processItem_complete hc h2
          obtain ⟨hstc1, a, ha⟩ := hstc
          have hsg : stream_generator loads store tid rid (pre ++ [u]) =
              streamEpilogue store tid rid st := by
            simp [stream_generator, hrun]
          rw [hsg]
          rcases streamEpilogue_events store tid rid st hstc1 a ha with hev | hev <;>
            rw [hev] <;> exact ⟨rfl, rfl⟩

/-- Witness for C3 at a concrete single complete update. -/
theorem stream_ordering_c3_witness :
    okOrder false (stream_generator loads0 store0 "t1" "r1"
      [⟨true, "", Content.text "done"⟩]).1 = true ∧
    finalOk (stream_generator loads0 store0 "t1" "r1"
      [⟨true, "", Content.text "done"⟩]).1 = true := by
  exact stream_ordering_c3 loads0 store0 "t1" "r1" [] ⟨true, "", Content.text "done"⟩ rfl

/-- C5: an exception raised while consuming the upstream sequence, or while
persisting the built status, makes the pipeline emit exactly one
internal-error event (an RPC-level error response, not a task state change:
the store is left unchanged) and nothing after it. -/
theorem stream_error_c5 (loads : String → Option JValue) (store : Store)
    (tid rid : String) (items : List StreamItem) :
    (runItems loads items none = Except.error () →
      stream_generator loads store tid rid items =
        ([StreamEvent.error rid streamErrMsg], store)) ∧
    (∀ st e, runItems loads items none = Except.ok (some st) →
      (update_store store tid ⟨st.task_state, some ⟨"agent", st.parts, none⟩⟩ st.artifacts).1 =
        Except.error e →
      stream_generator loads store tid rid items =
        ([StreamEvent.error rid streamErrMsg], store)) := by
  constructor
  · intro h
    simp [stream_generator, h]
  · intro st e h1 h2
    have hsg : stream_generator loads store tid rid items =
        streamEpilogue store tid rid st := by
      simp [stream_generator, h1]
    rw [hsg]
    simp only [streamEpilogue]
    cases hu : update_store store tid ⟨st.task_state, some ⟨"agent", st.parts, none⟩⟩ st.artifacts with
    | mk fst snd =>
        rw [hu] at h2
        dsimp only at h2
        subst h2
        rfl

/-- Witness for C5: a malformed complete update raises inside the loop; a
missing task identifier raises while persisting.  Both yield the single
internal-error event with the store unchanged. -/
theorem stream_error_c5_witness :
    stream_generator loads0 store0 "t1" "r1"
        [⟨true, "", Content.data [("response", JValue.num 3)]⟩] =
      ([StreamEvent.error "r1" streamErrMsg], store0) ∧
    stream_generator loads0 ([] : Store) "t1" "r1"
        [⟨false, "w", Content.text ""⟩] =
      ([StreamEvent.error "r1" streamErrMsg], ([] : Store)) := by
  constructor
  · exact (stream_error_c5 loads0 store0 "t1" "r1"
      [⟨true, "", Content.data [("response", JValue.num 3)]⟩]).1 rfl
  · exact (stream_error_c5 loads0 ([] : Store) "t1" "r1"
      [⟨false, "w", Content.text ""⟩]).2
      ⟨false, TaskState.WORKING, [Part.text "w"], none⟩
      ("Task " ++ "t1" ++ " not found") rfl rfl

/-- Unary response envelope (`SendTaskResponse(id=request.id, result=task)`). -/
structure SendTaskResponse where
  id : String
  result : Task

/-- Boolean success test on `Except`. -/
def isOkE {E A : Type} : Except E A → Bool
  | Except.ok _ => true
  | Except.error _ => false

/-- Embedding of the tail of `AgentTaskManager._invoke`
(src/a2a_servers/common/agent_task_manager.py): given the text the agent
returned, build the textual parts, select `INPUT_REQUIRED` when the result
contains the substring `"MISSING_INFO:"` (else `COMPLETED`), persist status
and one artifact through `_update_store` (whose `ValueError` propagates),
and return the response wrapping the stored task. -/
def invoke_result (store : Store) (taskId reqId : String) (result : String) :
    Except String (SendTaskResponse × Store) :=
  let parts : List Part := [Part.text result]
  let task_state : TaskState :=
    if isSubstr "MISSING_INFO:" result then TaskState.INPUT_REQUIRED
    else TaskState.COMPLETED
  match update_store store taskId ⟨task_state, some ⟨"agent", parts, none⟩⟩
      (some [⟨parts, 0, none⟩]) with
  | (Except.error e, _) => Except.error e
  | (Except.ok task, store') => Except.ok (⟨reqId, task⟩, store')

theorem update_store_ok_status (store : Store) (tid : String) (status : TaskStatus)
    (arts : Option (List Artifact)) (task : Task) (store2 : Store)
    (h : update_store store tid status arts = (Except.ok task, store2)) :
    task.status = status := by
  simp only [update_store] at h
  cases hg : dictGet tid store with
  | none => simp only [hg] at h; simp at h
  | some t0 =>
      simp only [hg] at h
      simp only [Prod.mk.injEq, Except.ok.injEq] at h
      rw [← h.1]

/-- C2 (amended): when a complete update's content is a dict whose
`"response"` entry is a dict with a `"result"` entry holding a string the
parser accepts, the engine parses that string as the artifact's data and
selects `INPUT_REQUIRED`; in every other complete case in which no exception
is raised (content not matching that shape), the raw content becomes the
artifact content with state `COMPLETED`; and in the unary path the stored
task's state is `INPUT_REQUIRED` exactly when the agent text contains the
substring `"MISSING_INFO:"`, else `COMPLETED`.  (The original claim's
"every other complete case yields COMPLETED" fails when checking or parsing
the nested field raises; see the counterexample.) -/
theorem terminal_state_c2 (loads : String → Option JValue) :
    (∀ (u : String) (d : List (String × JValue)) (rf : List (String × JValue))
        (s : String) (v : JValue),
      dictGet "response" d = some (JValue.obj rf) →
      dictGet "result" rf = some (JValue.str s) →
      loads s = some v →
      processItem loads ⟨true, u, Content.data d⟩ =
        Except.ok ⟨true, TaskState.INPUT_REQUIRED, [Part.data v],
          some [⟨[Part.data v], 0, some false⟩]⟩) ∧
    (∀ (u : String) (d : List (String × JValue)) (st : LoopState),
      processItem loads ⟨true, u, Content.data d⟩ = Except.ok st →
      (∀ resp, dictGet "response" d = some resp →
        pyContains resp "result" ≠ Except.ok true) →
      st = ⟨true, TaskState.COMPLETED, [Part.data (JValue.obj d)],
        some [⟨[Part.data (JValue.obj d)], 0, some false⟩]⟩) ∧
    (∀ (u s : String),
      processItem loads ⟨true, u, Content.text s⟩ =
        Except.ok ⟨true, TaskState.COMPLETED, [Part.text s],
          some [⟨[Part.text s], 0, some false⟩]⟩) ∧
    (∀ (store : Store) (tid rid r : String) (task : Task),
      dictGet tid store = some task →
      isOkE (invoke_result store tid rid r) = true) ∧
    (∀ (store : Store) (tid rid r : String) (resp : SendTaskResponse) (store' : Store),
      invoke_result store tid rid r = Except.ok (resp, store') →
      resp.result.status.state =
        (if isSubstr "MISSING_INFO:" r then TaskState.INPUT_REQUIRED
         else TaskState.COMPLETED)) := by
  refine ⟨?_, ?_, ?_, ?_, ?_⟩
  · intro u d rf s v h1 h2 h3
    simp [processItem, h1, pyContains, h2, pyIndex, pyLoads, h3]
  · intro u d st h hother
    cases hresp : dictGet "response" d with
    | none =>
        simp [processItem, hresp] at h
        exact h.symm
    | some resp =>
        have hne := hother resp hresp
        cases hcont : pyContains resp "result" with
        | error e => simp [processItem, hresp, hcont] at h
        | ok b =>
            cases b with
            | true => exact absurd hcont hne
            | false =>
                simp [processItem, hresp, hcont] at h
                exact h.symm
  · intro u s
    rfl
  · intro store tid rid r task h
    simp [invoke_result, update_store, h, isOkE]
  · intro store tid rid r resp store' h
    simp only [invoke_result] at h
    cases hu : update_store store tid
        ⟨(if isSubstr "MISSING_INFO:" r then TaskState.INPUT_REQUIRED
          else TaskState.COMPLETED), some ⟨"agent", [Part.text r], none⟩⟩
        (some [⟨[Part.text r], 0, none⟩]) with
    | mk fst snd =>
        rw [hu] at h
        cases fst with
        | error e => simp at h
        | ok task =>
            simp only [Except.ok.injEq, Prod.mk.injEq] at h
            obtain ⟨h1, h2⟩ := h
            rw [← h1]
            have hst := update_store_ok_status store tid _ _ task snd hu
            simp [hst]

/-- Witness for C2 (amended) at concrete inputs: a nested
`response.result` JSON string selects `INPUT_REQUIRED` with the parsed
data, and a unary `MISSING_INFO:` answer invokes successfully. -/
theorem terminal_state_c2_witness :
    processItem loads0 ⟨true, "", Content.data
        [("response", JValue.obj [("result", JValue.str "42")])]⟩ =
      Except.ok ⟨true, TaskState.INPUT_REQUIRED, [Part.data (JValue.num 42)],
        some [⟨[Part.data (JValue.num 42)], 0, some false⟩]⟩ ∧
    isOkE (invoke_result store0 "t1" "r1" "MISSING_INFO: need X") = true := by
  have h := terminal_state_c2 loads0
  exact ⟨h.1 "" [("response", JValue.obj [("result", JValue.str "42")])]
      [("result", JValue.str "42")] "42" (JValue.num 42) rfl rfl rfl,
    h.2.2.2.1 store0 "t1" "r1" "MISSING_INFO: need X" task0 rfl⟩

/-- Counterexample to C2 as stated: a complete update whose content is the
dict `response -> \x7bresult -> "not json"\x7d` is an "other complete case" in
the claim's reading (its result value is not a JSON-encoded string the
parser accepts), yet the code does not produce a `COMPLETED` task with the
raw content as artifact: `json.loads` raises, and the pipeline emits a
single internal-error event (one event instead of the three a complete
update would produce), leaving the store unchanged. -/
theorem terminal_state_c2_counterexample :
    (stream_generator loads0 store0 "t1" "r1"
        [⟨true, "", Content.data
          [("response", JValue.obj [("result", JValue.str "not json")])]⟩]) =
      ([StreamEvent.error "r1" streamErrMsg], store0) ∧
    ((stream_generator loads0 store0 "t1" "r1"
        [⟨true, "", Content.data
          [("response", JValue.obj [("result", JValue.str "not json")])]⟩]).1).length = 1 := by
  exact ⟨rfl, rfl⟩

/-- Parameters of a send-task request (identifier, session, message, accepted
output modes, optional metadata). -/
structure TaskSendParams where
  id : String
  sessionId : String
  message : Message
  acceptedOutputModes : List String
  metadata : Option Metadata

/-- A send-task request envelope (`request.id` plus `request.params`); the
unary and streaming request types carry the same fields used here. -/
structure SendTaskRequest where
  id : String
  params : TaskSendParams

/-- Modelled from the spec: `upsert(id, sessionId, initialMessage)` "creates a
Task if absent (state SUBMITTED, history = [initialMessage]) or returns the
existing one unchanged" (spec section 4.1).  The implementation
`InMemoryTaskManager.upsert_task` lives in
src/a2a_servers/common/server/task_manager.py, which is not among the
provided sources. -/
def upsert_task (store : Store) (p : TaskSendParams) : Store :=
  match dictGet p.id store with
  | some _ => store
  | none =>
      dictInsert p.id
        ⟨p.id, p.sessionId, ⟨TaskState.SUBMITTED, none⟩, none, some [p.message], none⟩
        store

/-- Modelled from the spec: the message of the structured RPC error built by
`utils.new_incompatible_types_error` (src/a2a_servers/common/server/utils.py,
not among the provided sources). -/
def incompatibleMsg : String := "Incompatible content types"

/-- Outcome of `on_send_task`: the incompatible-types RPC error, a successful
response, or a propagated exception. -/
inductive UnaryResult where
  | rpcError (reqId message : String)
  | response (r : SendTaskResponse)
  | raised (message : String)

/-- Outcome of `on_send_task_subscribe`: the incompatible-types RPC error or
the stream of events. -/
inductive SubscribeResult where
  | rpcError (reqId message : String)
  | events (evs : List StreamEvent)

/-- Embedding of `AgentTaskManager._validate_request`: `compat` is the pure
compatibility check `utils.are_modalities_compatible` (a collaborator per
spec section 6, its module is not among the provided sources); a failed
check produces the incompatible-types error carrying the request id. -/
def validate_request (compat : List String → List String → Bool)
    (supported : List String) (req : SendTaskRequest) : Option String :=
  if compat req.params.acceptedOutputModes supported then none else some req.id

/-- Embedding of `AgentTaskManager.on_send_task`: validate, upsert, then
invoke the agent once (`agentResult` is the text the agent returned). -/
def on_send_task (compat : List String → List String → Bool)
    (supported : List String) (store : Store) (req : SendTaskRequest)
    (agentResult : String) : UnaryResult × Store :=
  match validate_request compat supported req with
  | some errId => (UnaryResult.rpcError errId incompatibleMsg, store)
  | none =>
      let store1 := upsert_task store req.params
      match invoke_result store1 req.params.id req.id agentResult with
      | Except.error e => (UnaryResult.raised e, store1)
      | Except.ok (resp, store2) => (UnaryResult.response resp, store2)

/-- Embedding of `AgentTaskManager.on_send_task_subscribe`: validate, upsert,
then return the streaming generator's event sequence. -/
def on_send_task_subscribe (compat : List String → List String → Bool)
    (supported : List String) (loads : String → Option JValue) (store : Store)
    (req : SendTaskRequest) (items : List StreamItem) : SubscribeResult × Store :=
  match validate_request compat supported req with
  | some errId => (SubscribeResult.rpcError errId incompatibleMsg, store)
  | none =>
      let store1 := upsert_task store req.params
      let out := stream_generator loads store1 req.params.id req.id items
      (SubscribeResult.events out.1, out.2)

theorem upsert_present (store : Store) (p : TaskSendParams) :
    (dictGet p.id (upsert_task store p)).isSome = true := by
  unfold upsert_task
  cases h : dictGet p.id store with
  | some t => simp [h]
  | none => simp [dictGet_dictInsert_self]

theorem update_store_ok_snd (store : Store) (tid : String) (status : TaskStatus)
    (arts : Option (List Artifact)) (task : Task) (store2 : Store)
    (h : update_store store tid status arts = (Except.ok task, store2)) :
    store2 = dictInsert tid task store := by
  simp only [update_store] at h
  cases hg : dictGet tid store with
  | none => simp only [hg] at h; simp at h
  | some t0 =>
      simp only [hg] at h
      simp only [Prod.mk.injEq, Except.ok.injEq] at h
      rw [← h.2, h.1]

theorem stream_generator_preserves (loads : String → Option JValue) (store : Store)
    (tid rid : String) (items : List StreamItem)
    (h : (dictGet tid store).isSome = true) :
    (dictGet tid (stream_generator loads store tid rid items).2).isSome = true := by
  unfold stream_generator
  cases hr : runItems loads items none with
  | error e => exact h
  | ok macc =>
      cases macc with
      | none => exact h
      | some st =>
          simp only [streamEpilogue]
          cases hu : update_store store tid
              ⟨st.task_state, some ⟨"agent", st.parts, none⟩⟩ st.artifacts with
          | mk fst snd =>
              cases fst with
              | error e => exact h
              | ok tsk =>
                  show (dictGet tid snd).isSome = true
                  rw [update_store_ok_snd store tid _ _ tsk snd hu,
                    dictGet_dictInsert_self]
                  rfl

theorem invoke_result_preserves (store : Store) (tid rid r : String) :
    ∀ (resp : SendTaskResponse) (store2 : Store),
      invoke_result store tid rid r = Except.ok (resp, store2) →
      (dictGet tid store2).isSome = true := by
  intro resp store2 hi
  simp only [invoke_result] at hi
  cases hu : update_store store tid
      ⟨(if isSubstr "MISSING_INFO:" r then TaskState.INPUT_REQUIRED
        else TaskState.COMPLETED), some ⟨"agent", [Part.text r], none⟩⟩
      (some [⟨[Part.text r], 0, none⟩]) with
  | mk fst snd =>
      rw [hu] at hi
      cases fst with
      | error e => simp at hi
      | ok task =>
          simp only [Except.ok.injEq, Prod.mk.injEq] at hi
          rw [← hi.2]
          rw [update_store_ok_snd store tid _ _ task snd hu, dictGet_dictInsert_self]
          rfl

/-- C9: a request whose accepted output modes are incompatible with the
agent's supported content types makes both `on_send_task` and
`on_send_task_subscribe` return the structured incompatible-types RPC error
with the store unchanged (no task upserted); a compatible request has its
task upserted before the agent is invoked (the handler factors through
`invoke_result`/`stream_generator` applied to the upserted store), so the
request's task identifier is present in the resulting store. -/
theorem validation_c9 (compat : List String → List String → Bool)
    (supported : List String) (loads : String → Option JValue) (store : Store)
    (req : SendTaskRequest) (agentResult : String) (items : List StreamItem) :
    (compat req.params.acceptedOutputModes supported = false →
      on_send_task compat supported store req agentResult =
        (UnaryResult.rpcError req.id incompatibleMsg, store) ∧
      on_send_task_subscribe compat supported loads store req items =
        (SubscribeResult.rpcError req.id incompatibleMsg, store)) ∧
    (compat req.params.acceptedOutputModes supported = true →
      on_send_task compat supported store req agentResult =
        (match invoke_result (upsert_task store req.params) req.params.id req.id agentResult with
         | Except.error e => (UnaryResult.raised e, upsert_task store req.params)
         | Except.ok (resp, store2) => (UnaryResult.response resp, store2)) ∧
      (dictGet req.params.id
        (on_send_task compat supported store req agentResult).2).isSome = true ∧
      (dictGet req.params.id
        (on_send_task_subscribe compat supported loads store req items).2).isSome = true) := by
  constructor
  · intro h
    constructor
    · simp [on_send_task, validate_request, h]
    · simp [on_send_task_subscribe, validate_request, h]
  · intro h
    have hv : validate_request compat supported req = none := by
      simp [validate_request, h]
    have he1 : on_send_task compat supported store req agentResult =
        (match invoke_result (upsert_task store req.params) req.params.id req.id agentResult with
         | Except.error e => (UnaryResult.raised e, upsert_task store req.params)
         | Except.ok (resp, store2) => (UnaryResult.response resp, store2)) := by
      simp [on_send_task, hv]
    refine ⟨he1, ?_, ?_⟩
    · rw [he1]
      have hp := upsert_present store req.params
      cases hi : invoke_result (upsert_task store req.params) req.params.id req.id agentResult with
      | error e => exact hp
      | ok pr =>
          obtain ⟨resp, store2⟩ := pr
          show (dictGet req.params.id store2).isSome = true
          exact invoke_result_preserves _ _ _ _ resp store2 hi
    · have he2 : on_send_task_subscribe compat supported loads store req items =
          (SubscribeResult.events
            (stream_generator loads (upsert_task store req.params) req.params.id req.id items).1,
           (stream_generator loads (upsert_task store req.params) req.params.id req.id items).2) := by
        simp [on_send_task_subscribe, hv]
      rw [he2]
      exact stream_generator_preserves loads _ _ _ items (upsert_present store req.params)

/-- Sample request used by the C9 witness. -/
def req9 : SendTaskRequest := ⟨"rq1", ⟨"t9", "s9", msg0, ["text"], none⟩⟩

/-- Witness for C9: an always-false compatibility check yields the RPC error
with the store unchanged; an always-true check upserts the task. -/
theorem validation_c9_witness :
    on_send_task (fun _ _ => false) ["text"] store0 req9 "res" =
      (UnaryResult.rpcError "rq1" incompatibleMsg, store0) ∧
    (dictGet "t9" (on_send_task (fun _ _ => true) ["text"] ([] : Store) req9 "res").2).isSome
      = true := by
  have h1 := (validation_c9 (fun _ _ => false) ["text"] loads0 store0 req9 "res" []).1 rfl
  have h2 := (validation_c9 (fun _ _ => true) ["text"] loads0 ([] : Store) req9 "res" []).2 rfl
  exact ⟨h1.1, h2.2.1⟩

/-- `TaskStatusUpdateEvent` payloads received from the remote stream. -/
structure TaskStatusUpdateEvent where
  id : String
  status : TaskStatus
  final : Bool
  metadata : Option Metadata

/-- `TaskArtifactUpdateEvent` payloads received from the remote stream. -/
structure TaskArtifactUpdateEvent where
  id : String
  artifact : Artifact
  metadata : Option Metadata

/-- The possible `response.result` payloads of the remote call: a full Task
(unary) or a status/artifact update event (streaming). -/
inductive StreamResult where
  | task (t : Task)
  | statusEvent (ev : TaskStatusUpdateEvent)
  | artifactEvent (ev : TaskArtifactUpdateEvent)

/-- `merge_metadata` on two objects that both expose the metadata attribute
(all payload types handled by `send_task` do). -/
def mergeMeta (t s : Option Metadata) : Option Metadata :=
  (merge_metadata ⟨true, t⟩ ⟨true, s⟩).metadata

/-- The status-message block of `send_task`: when the payload's status has a
(truthy) message, merge the request message's metadata into it and perform
the message-id chaining with the externally generated fresh identifier. -/
def chainStatus (request : TaskSendParams) (fresh : String) (st : TaskStatus) :
    TaskStatus :=
  match st.message with
  | none => st
  | some m =>
      let md1 := mergeMeta m.metadata request.message.metadata
      let md2 := chainMessageId md1 fresh
      { st with message := some { m with metadata := some md2 } }

/-- Processing `send_task` applies to a Task payload: top-level metadata
merge from the request, then the status-message merge and chaining. -/
def processTask (request : TaskSendParams) (fresh : String) (t : Task) : Task :=
  let t1 : Task := { t with metadata := mergeMeta t.metadata request.metadata }
  { t1 with status := chainStatus request fresh t1.status }

/-- Embedding of the per-element processing in the streaming loop of
`RemoteAgentConnections.send_task`
(src/a2a_servers/agents/utils/remote_agent_connection.py):
`merge_metadata(response.result, request)` always runs; the status-message
merge and message-id chaining run only for payloads that have a
`status.message` (Tasks and status update events, not artifact events). -/
def processResult (request : TaskSendParams) (fresh : String) :
    StreamResult → StreamResult
  | StreamResult.task t => StreamResult.task (processTask request fresh t)
  | StreamResult.statusEvent ev =>
      let ev1 : TaskStatusUpdateEvent :=
        { ev with metadata := mergeMeta ev.metadata request.metadata }
      StreamResult.statusEvent { ev1 with status := chainStatus request fresh ev1.status }
  | StreamResult.artifactEvent ev =>
      StreamResult.artifactEvent { ev with metadata := mergeMeta ev.metadata request.metadata }

/-- Python's `hasattr(response.result, "final") and response.result.final`:
only status update events carry a final flag. -/
def isFinalResult : StreamResult → Bool
  | StreamResult.statusEvent ev => ev.final
  | _ => false

/-- Embedding of the `async for` loop of the streaming branch of
`send_task`: process each element, pass it to the callback (when supplied)
capturing the returned Task, and break as soon as an element is marked
final.  `freshId n` is the fresh uuid generated at the n-th iteration. -/
def sendLoop (freshId : Nat → String) (request : TaskSendParams)
    (cb : Option (StreamResult → Task)) :
    List StreamResult → Nat → Option Task → Option Task
  | [], _, task => task
  | r :: rest, n, task =>
      let r1 := processResult request (freshId n) r
      let task1 : Option Task := match cb with
        | none => task
        | some f => some (f r1)
      if isFinalResult r1 then task1 else sendLoop freshId request cb rest (n + 1) task1

/-- Remote agent capability flags (only the streaming flag is used here). -/
structure AgentCapabilities where
  streaming : Bool

/-- A remote agent's card: name, address and capabilities. -/
structure AgentCard where
  name : String
  url : String
  capabilities : AgentCapabilities

/-- Embedding of `RemoteAgentConnections.send_task`: on a streaming-capable
card, an optional initial callback invocation with a synthesized SUBMITTED
snapshot (its return value is discarded by the source, so it has no
observable effect here), then the streaming loop starting from `task = None`;
on a non-streaming card, process the single unary response and return it
unconditionally. -/
def rac_send_task (freshId : Nat → String) (card : AgentCard)
    (request : TaskSendParams) (cb : Option (StreamResult → Task))
    (streamed : List StreamResult) (unary : Task) : Option Task :=
  if card.capabilities.streaming then
    sendLoop freshId request cb streamed 0 none
  else
    some (processTask request (freshId 0) unary)

theorem isFinal_processResult (request : TaskSendParams) (fresh : String)
    (r : StreamResult) :
    isFinalResult (processResult request fresh r) = isFinalResult r := by
  cases r <;> rfl

theorem sendLoop_none (freshId : Nat → String) (request : TaskSendParams) :
    ∀ (rs : List StreamResult) (n : Nat) (t : Option Task),
      sendLoop freshId request none rs n t = t := by
  intro rs
  induction rs with
  | nil => intro n t; rfl
  | cons r rest ih =>
      intro n t
      simp only [sendLoop]
      split
      · rfl
      · exact ih (n + 1) t

theorem sendLoop_stop (freshId : Nat → String) (request : TaskSendParams)
    (cb : Option (StreamResult → Task)) (r : StreamResult)
    (hr : isFinalResult r = true) :
    ∀ (pre : List StreamResult), (∀ x ∈ pre, isFinalResult x = false) →
    ∀ (post : List StreamResult) (n : Nat) (t : Option Task),
      sendLoop freshId request cb (pre ++ r :: post) n t =
        sendLoop freshId request cb (pre ++ [r]) n t := by
  intro pre
  induction pre with
  | nil =>
      intro _ post n t
      have h1 : isFinalResult (processResult request (freshId n) r) = true := by
        rw [isFinal_processResult]; exact hr
      simp [sendLoop, h1]
  | cons x pre' ih =>
      intro hpre post n t
      have hx1 : isFinalResult (processResult request (freshId n) x) = false := by
        rw [isFinal_processResult]; exact hpre x (by simp)
      have hpre' : ∀ y ∈ pre', isFinalResult y = false :=
        fun y hy => hpre y (List.mem_cons_of_mem _ hy)
      simp only [List.cons_append, sendLoop, hx1]
      exact ih hpre' post (n + 1) _

theorem sendLoop_last (freshId : Nat → String) (request : TaskSendParams)
    (f : StreamResult → Task) (r : StreamResult) (hr : isFinalResult r = true) :
    ∀ (pre : List StreamResult), (∀ x ∈ pre, isFinalResult x = false) →
    ∀ (n : Nat) (t : Option Task),
      sendLoop freshId request (some f) (pre ++ [r]) n t =
        some (f (processResult request (freshId (n + pre.length)) r)) := by
  intro pre
  induction pre with
  | nil =>
      intro _ n t
      have h1 : isFinalResult (processResult request (freshId n) r) = true := by
        rw [isFinal_processResult]; exact hr
      simp [sendLoop, h1]
  | cons x pre' ih =>
      intro hpre n t
      have hx1 : isFinalResult (processResult request (freshId n) x) = false := by
        rw [isFinal_processResult]; exact hpre x (by simp)
      have hpre' : ∀ y ∈ pre', isFinalResult y = false :=
        fun y hy => hpre y (List.mem_cons_of_mem _ hy)
      have hif : sendLoop freshId request (some f) (x :: (pre' ++ [r])) n t =
          sendLoop freshId request (some f) (pre' ++ [r]) (n + 1)
            (some (f (processResult request (freshId n) x))) := by
        simp [sendLoop, hx1]
      rw [List.cons_append, hif, ih hpre' (n + 1) _]
      have harith : n + 1 + pre'.length = n + (x :: pre').length := by
        rw [List.length_cons]
        omega
      rw [harith]

/-- C8: on a streaming-capable card, `send_task` stops consuming the remote
sequence at the first element marked final (elements after it are never
consumed: they do not affect the result), returns the Task produced by the
last callback invocation on a stream element, and returns `None` when no
callback was supplied or when no stream element arrived. -/
theorem send_task_c8 (freshId : Nat → String) (card : AgentCard)
    (request : TaskSendParams) (unary : Task)
    (hs : card.capabilities.streaming = true) :
    (∀ (cb : Option (StreamResult → Task)) (pre : List StreamResult)
        (r : StreamResult) (post : List StreamResult),
      (∀ x ∈ pre, isFinalResult x = false) → isFinalResult r = true →
      rac_send_task freshId card request cb (pre ++ r :: post) unary =
        rac_send_task freshId card request cb (pre ++ [r]) unary) ∧
    (∀ (f : StreamResult → Task) (pre : List StreamResult)
        (r : StreamResult) (post : List StreamResult),
      (∀ x ∈ pre, isFinalResult x = false) → isFinalResult r = true →
      rac_send_task freshId card request (some f) (pre ++ r :: post) unary =
        some (f (processResult request (freshId pre.length) r))) ∧
    (∀ rs, rac_send_task freshId card request none rs unary = none) ∧
    (∀ cb, rac_send_task freshId card request cb [] unary = none) := by
  have hb : ∀ (cb : Option (StreamResult → Task)) (rs : List StreamResult),
      rac_send_task freshId card request cb rs unary =
        sendLoop freshId request cb rs 0 none := by
    intro cb rs
    unfold rac_send_task
    rw [hs]
    rfl
  refine ⟨?_, ?_, ?_, ?_⟩
  · intro cb pre r post hpre hr
    rw [hb, hb]
    exact sendLoop_stop freshId request cb r hr pre hpre post 0 none
  · intro f pre r post hpre hr
    rw [hb]
    rw [sendLoop_stop freshId request (some f) r hr pre hpre post 0 none]
    have hl := sendLoop_last freshId request f r hr pre hpre 0 none
    simpa using hl
  · intro rs
    rw [hb]
    exact sendLoop_none freshId request rs 0 none
  · intro cb
    rw [hb]
    rfl

/-- Sample fresh-identifier supply for the C8 witness. -/
def freshId0 : Nat → String := fun n => "uuid-" ++ toString n

/-- Sample streaming-capable card for the C8 witness. -/
def card0 : AgentCard := ⟨"dev_to_agent", "http://localhost:10000", ⟨true⟩⟩

/-- Sample request parameters for the C8 witness. -/
def reqP0 : TaskSendParams := ⟨"t1", "s1", msg0, ["text"], none⟩

/-- Sample final status update event for the C8 witness. -/
def finalEv0 : StreamResult :=
  StreamResult.statusEvent ⟨"t1", ⟨TaskState.COMPLETED, none⟩, true, none⟩

/-- Sample artifact event (placed after the final element) for the C8
witness. -/
def artEv0 : StreamResult := StreamResult.artifactEvent ⟨"t1", art0, none⟩

/-- Witness for C8: with a constant callback the final-marked first element
ends consumption and its callback value is returned; without a callback the
result is `None`. -/
theorem send_task_c8_witness :
    rac_send_task freshId0 card0 reqP0 (some (fun _ => task0))
        ([] ++ finalEv0 :: [artEv0]) task0 = some task0 ∧
    rac_send_task freshId0 card0 reqP0 none [finalEv0, artEv0] task0 = none := by
  have h := send_task_c8 freshId0 card0 reqP0 task0 rfl
  refine ⟨?_, h.2.2.1 [finalEv0, artEv0]⟩
  have h2 := h.2.1 (fun _ => task0) [] finalEv0 [artEv0]
    (by intro x hx; simp at hx) rfl
  simpa using h2

end A2A
